import Mathlib

/-!
Shallow embedding of the crawl orchestration and result-reconciliation
logic of `src/crawl_infoq-deepcrawling.py` (function `main`).

Modelling choices:
* A Python string is modelled as a Lean `String`; Python `len(s)` and the
  slice `s[:n]` operate on code points, embedded as `pyLen` / `pySlice`
  over `String.data` (the character list).
* A `PageResult` carries the fields the core reads: `url`, `success`,
  `extracted_content` (`None` ↦ `none`), `markdown` (`None` ↦ `none`) and
  `error_message`.  Python truthiness of an optional string (`None` and
  `""` are falsy) is spelled out at each use site.
* `json.loads` is an external library call; the reconciler only branches
  on its outcome (a JSON list, a single JSON object, or a decode error),
  so it is embedded as a parameter `parse : String → Option Parsed` where
  `Parsed.list` / `Parsed.single` are the two non-error shapes and `none`
  is a `JSONDecodeError`.  A JSON object (Python dict, insertion ordered)
  is modelled as an ordered association list `Rec`.
* `crawler.arun` on one URL is an external fetch that either returns a
  `PageResult` or raises; it is embedded as a parameter
  `fetch : String → Except String PageResult`.
* The mutable accumulator lists of the Python loops become explicit
  accumulator-passing recursions (`manual_crawl`, `reconcileLoop`,
  `summaryLoop`); alongside the produced results, `manual_crawl` also
  returns the trace of URLs for which a fetch was issued.
-/

namespace Crawl

/-- A JSON object (Python dict) as an insertion-ordered field map. -/
abbrev Rec := List (String × String)

/-- The fields of a crawl result that the orchestration core reads. -/
structure PageResult where
  url : String
  success : Bool
  extracted_content : Option String
  markdown : Option String
  error_message : Option String
deriving DecidableEq, Repr

/-- Python `len(s)`: the number of code points of `s`. -/
def pyLen (s : String) : Nat := s.data.length

/-- Python `s[:n]`: the first `n` code points of `s`. -/
def pySlice (s : String) (n : Nat) : String := String.mk (s.data.take n)

/-- Outcome shapes of `json.loads` on an `extracted_content` payload:
a JSON list of records or a single record.  A decode error is `none` in
`Option Parsed`. -/
inductive Parsed where
  | list (items : List Rec) : Parsed
  | single (item : Rec) : Parsed
deriving DecidableEq, Repr

/-- The fixed URL list `urls_to_crawl` of the source (lines 58–66). -/
def urls_to_crawl : List String :=
  [ "https://tradesquareltd.com/"
  , "https://tradesquareltd.com/home"
  , "https://tradesquareltd.com/our-story"
  , "https://tradesquareltd.com/our-works"
  , "https://tradesquareltd.com/our-services"
  , "https://tradesquareltd.com/careers"
  , "https://tradesquareltd.com/contact-us" ]

/-- The manual crawl loop (source lines 95–106): for each URL, issue one
fetch; on an exception, print and continue; on an unsuccessful result,
print and continue; on a successful result, append it to
`manual_results`.  Returns `(manual_results, fetched-URL trace)`. -/
def manual_crawl (fetch : String → Except String PageResult) :
    List String → List PageResult × List String
  | [] => ([], [])
  | u :: rest =>
    let step := manual_crawl fetch rest
    match fetch u with
    | Except.ok r => (if r.success then r :: step.1 else step.1, u :: step.2)
    | Except.error _ => (step.1, u :: step.2)

/-- The selection condition of source line 109:
`len(manual_results) > len(result)`. -/
def use_manual (manual_results result : List PageResult) : Bool :=
  decide (result.length < manual_results.length)

/-- The selection of source lines 109–110: `result = manual_results` when
the manual set has strictly more pages, otherwise keep `result`. -/
def chooseResult (manual_results result : List PageResult) : List PageResult :=
  if use_manual manual_results result then manual_results else result

/-- The fallback coordinator (source lines 78–111): when the automated
result list has fewer than 3 pages, run the manual crawl over
`urls_to_crawl` and keep whichever set is larger; otherwise keep the
automated set and issue no fetch.  Second component: the fetched-URL
trace of the fallback pass. -/
def fallbackStep (fetch : String → Except String PageResult)
    (result : List PageResult) : List PageResult × List String :=
  if result.length < 3 then
    let mc := manual_crawl fetch urls_to_crawl
    (chooseResult mc.1 result, mc.2)
  else (result, [])

/-- Source line 118: `[r for r in result if r.success]`. -/
def successful_results (rs : List PageResult) : List PageResult :=
  rs.filter (fun r => r.success)

/-- The no-extraction preview of source line 156:
`page_result.markdown[:200] + "..." if page_result.markdown else "No content"`
(Python truthiness: `None` and `""` give the sentinel). -/
def mdPreview200 : Option String → String
  | some s => if s = "" then "No content" else pySlice s 200 ++ "..."
  | none => "No content"

/-- The fallback entry of source lines 153–157 for a page with no
(truthy) extracted content. -/
def no_extraction_record (p : PageResult) : Rec :=
  [("url", p.url), ("status", "no_extraction"),
   ("markdown_preview", mdPreview200 p.markdown)]

/-- The body of the reconciliation loop (source lines 138–157) for one
successful page: its contribution to `all_extracted_content`.  A truthy
`extracted_content` is parsed: a list is flattened (`extend`), a single
object appended, and a decode error yields the `{url, content}` fallback
entry (lines 147–150); a falsy `extracted_content` yields the
no-extraction fallback entry (lines 153–157). -/
def processPage (parse : String → Option Parsed) (p : PageResult) : List Rec :=
  match p.extracted_content with
  | some c =>
    if c = "" then [no_extraction_record p]
    else
      match parse c with
      | some (Parsed.list items) => items
      | some (Parsed.single item) => [item]
      | none => [[("url", p.url), ("content", c)]]
  | none => [no_extraction_record p]

/-- The accumulating reconciliation loop of source lines 129–157 over the
successful results, building `all_extracted_content`. -/
def reconcileLoop (parse : String → Option Parsed) (acc : List Rec) :
    List PageResult → List Rec
  | [] => acc
  | p :: rest => reconcileLoop parse (acc ++ processPage parse p) rest

/-- `all_extracted_content` as produced by `main` from a result list
(source lines 126–157). -/
def all_extracted_content (parse : String → Option Parsed)
    (rs : List PageResult) : List Rec :=
  reconcileLoop parse [] (successful_results rs)

/-- The bounded markdown preview of source line 177:
`page_result.markdown[:500] + "..." if page_result.markdown and len(page_result.markdown) > 500 else page_result.markdown`. -/
def mdPreview500 : Option String → Option String
  | some s => if ¬ s = "" ∧ 500 < pyLen s then some (pySlice s 500 ++ "...")
              else some s
  | none => none

/-- One entry of the detailed output artifact (source lines 173–178). -/
structure CrawlSummary where
  url : String
  success : Bool
  extracted_content : Option String
  markdown : Option String
deriving DecidableEq, Repr

/-- The `page_data` dict built per successful page (source lines 173–178). -/
def mkSummary (p : PageResult) : CrawlSummary :=
  { url := p.url
  , success := p.success
  , extracted_content := p.extracted_content
  , markdown := mdPreview500 p.markdown }

/-- The accumulating loop of source lines 171–179 building `detailed_data`. -/
def summaryLoop (acc : List CrawlSummary) :
    List PageResult → List CrawlSummary
  | [] => acc
  | p :: rest => summaryLoop (acc ++ [mkSummary p]) rest

/-- `detailed_data` as produced by `main` (source lines 171–179). -/
def detailed_data (rs : List PageResult) : List CrawlSummary :=
  summaryLoop [] (successful_results rs)

/-- Auxiliary for stating success-independence of the fallback selection:
overwrite a page's success flag. -/
def setSuccess (b : Bool) (p : PageResult) : PageResult :=
  { p with success := b }

/-! ### Structural lemmas about the loops -/

/-- The manual crawl issues one fetch per URL, in list order, whatever the
fetch outcomes are. -/
theorem manual_crawl_trace (fetch : String → Except String PageResult) :
    ∀ urls : List String, (manual_crawl fetch urls).2 = urls := by
  intro urls
  induction urls with
  | nil => rfl
  | cons u rest ih =>
    simp only [manual_crawl]
    cases fetch u with
    | ok r =>
      cases hr : r.success <;> simp [ih]
    | error e => simp [ih]

/-- The manual crawl keeps exactly the successful fetch outcomes, in
list order; exceptions and unsuccessful results are dropped. -/
theorem manual_crawl_results (fetch : String → Except String PageResult) :
    ∀ urls : List String,
      (manual_crawl fetch urls).1 = urls.filterMap (fun u =>
        match fetch u with
        | Except.ok r => if r.success then some r else none
        | Except.error _ => none) := by
  intro urls
  induction urls with
  | nil => rfl
  | cons u rest ih =>
    simp only [manual_crawl, List.filterMap_cons]
    cases fetch u with
    | ok r =>
      cases hr : r.success <;> simp [ih, hr]
    | error e => simp [ih]

/-- The reconciliation loop prepends its accumulator and concatenates the
per-page contributions in page order. -/
theorem reconcileLoop_eq (parse : String → Option Parsed) :
    ∀ (ps : List PageResult) (acc : List Rec),
      reconcileLoop parse acc ps = acc ++ ps.flatMap (processPage parse) := by
  intro ps
  induction ps with
  | nil => intro acc; simp [reconcileLoop]
  | cons p rest ih =>
    intro acc
    simp [reconcileLoop, ih, List.flatMap_cons, List.append_assoc]

/-- The summary loop prepends its accumulator and maps `mkSummary` over
the pages in order. -/
theorem summaryLoop_eq :
    ∀ (ps : List PageResult) (acc : List CrawlSummary),
      summaryLoop acc ps = acc ++ ps.map mkSummary := by
  intro ps
  induction ps with
  | nil => intro acc; simp [summaryLoop]
  | cons p rest ih =>
    intro acc
    simp [summaryLoop, ih, List.append_assoc]

/-! ### Concrete fetch functions used by witnesses and counterexamples -/

/-- A fetch that always succeeds with an empty-content page. -/
def okFetch : String → Except String PageResult :=
  fun u => Except.ok ⟨u, true, none, none, none⟩

/-- A fetch whose every result is unsuccessful, carrying an error
message. -/
def failFetch : String → Except String PageResult :=
  fun u => Except.ok ⟨u, false, none, none, some "boom"⟩

/-! ### C1: fallback selection by raw page count -/

/-- C1.  At the fallback decision point the fixed-URL-list result set
replaces the automated one exactly when it has strictly more
`PageResult`s, and the decision condition (source line 109) depends on
the two sets only through their lengths — in particular it is unchanged
when every success flag of either set is overwritten arbitrarily. -/
theorem fallback_selection (m a : List PageResult) (b c : Bool)
    (h : ¬ m = a) :
    (chooseResult m a = m ↔ a.length < m.length)
  ∧ (chooseResult m a = a ↔ ¬ a.length < m.length)
  ∧ use_manual (m.map (setSuccess b)) (a.map (setSuccess c)) = use_manual m a := by
  refine ⟨?_, ?_, ?_⟩
  · constructor
    · intro hm
      by_contra hlen
      have : chooseResult m a = a := by
        simp [chooseResult, use_manual, hlen]
      exact h (hm ▸ this)
    · intro hlen
      simp [chooseResult, use_manual, hlen]
  · constructor
    · intro ha
      intro hlen
      have : chooseResult m a = m := by
        simp [chooseResult, use_manual, hlen]
      exact h (this.symm.trans ha)
    · intro hlen
      simp [chooseResult, use_manual, hlen]
  · simp [use_manual]

/-- Witness for C1 at concrete inputs: a two-page manual set (both pages
unsuccessful) replaces a one-page automated set (its page successful). -/
theorem fallback_selection_witness :
    (chooseResult
        [⟨"m1", false, none, none, none⟩, ⟨"m2", false, none, none, none⟩]
        [⟨"a1", true, none, none, none⟩]
      = [⟨"m1", false, none, none, none⟩, ⟨"m2", false, none, none, none⟩])
  ∧ use_manual
      [⟨"m1", true, none, none, none⟩, ⟨"m2", true, none, none, none⟩]
      [⟨"a1", true, none, none, none⟩]
    = use_manual
      [⟨"m1", false, none, none, none⟩, ⟨"m2", false, none, none, none⟩]
      [⟨"a1", true, none, none, none⟩] := by
  have h := fallback_selection
    [⟨"m1", false, none, none, none⟩, ⟨"m2", false, none, none, none⟩]
    [⟨"a1", true, none, none, none⟩] true true (by decide)
  exact ⟨h.1.mpr (by decide), h.2.2⟩

/-! ### C2: fallback threshold -/

/-- C2.  When the automated result set has fewer than 3 pages, the
fallback pass issues exactly one fetch per URL of `urls_to_crawl`, in
list order (its fetch trace is the list itself); with 3 or more pages no
fixed-list fetch is issued. -/
theorem fallback_threshold (fetch : String → Except String PageResult)
    (result : List PageResult) :
    (result.length < 3 → (fallbackStep fetch result).2 = urls_to_crawl)
  ∧ (3 ≤ result.length → (fallbackStep fetch result).2 = []) := by
  constructor
  · intro h
    simp [fallbackStep, h, manual_crawl_trace]
  · intro h
    have : ¬ result.length < 3 := by omega
    simp [fallbackStep, this]

/-- Witness for C2: an empty automated set triggers a fetch of every
fixed URL in order; a three-page set triggers none. -/
theorem fallback_threshold_witness :
    (fallbackStep okFetch []).2 = urls_to_crawl
  ∧ (fallbackStep okFetch
      [⟨"a", true, none, none, none⟩, ⟨"b", true, none, none, none⟩,
       ⟨"c", true, none, none, none⟩]).2 = [] :=
  ⟨(fallback_threshold okFetch []).1 (by decide),
   (fallback_threshold okFetch
      [⟨"a", true, none, none, none⟩, ⟨"b", true, none, none, none⟩,
       ⟨"c", true, none, none, none⟩]).2 (by decide)⟩

/-! ### C3: failures in the fixed-list pass -/

/-- Counterexample to C3 as stated.  With a fetch whose every result is
unsuccessful with error message "boom", the fallback pass still fetches
every fixed URL, yet its result set is empty: the error is recorded in no
`PageResult` of the fallback result set — unsuccessful results are
dropped (only printed), not kept with their `error_message`. -/
theorem fallback_error_not_recorded :
    failFetch "https://tradesquareltd.com/"
      = Except.ok ⟨"https://tradesquareltd.com/", false, none, none, some "boom"⟩
  ∧ (manual_crawl failFetch urls_to_crawl).2 = urls_to_crawl
  ∧ (manual_crawl failFetch urls_to_crawl).1 = [] := by
  refine ⟨rfl, ?_, ?_⟩ <;> rfl

/-- C3 amended.  A fetch exception or an unsuccessful result for one URL
never aborts the pass: every URL of the list is still fetched, in order.
But the failure is not recorded into the fallback result set — that set
keeps exactly the successful results (every element has `success = true`),
and failed pages are omitted from it entirely. -/
theorem fallback_error_tolerance (fetch : String → Except String PageResult)
    (urls : List String) :
    (manual_crawl fetch urls).2 = urls
  ∧ (manual_crawl fetch urls).1 = urls.filterMap (fun u =>
      match fetch u with
      | Except.ok r => if r.success then some r else none
      | Except.error _ => none)
  ∧ ((manual_crawl fetch urls).1.all (fun r => r.success)) = true := by
  refine ⟨manual_crawl_trace fetch urls, manual_crawl_results fetch urls, ?_⟩
  rw [manual_crawl_results]
  rw [List.all_eq_true]
  intro r hr
  rw [List.mem_filterMap] at hr
  obtain ⟨u, _, hu⟩ := hr
  revert hu
  cases fetch u with
  | ok pr =>
    cases hpr : pr.success with
    | false => simp [hpr]
    | true =>
      intro hu
      simp only [if_pos hpr, Option.some.injEq] at hu
      simpa [← hu] using hpr
  | error e => simp

/-! ### C8: exactly one active result set -/

/-- C8.  The selected result set is always one of the two candidate sets
— the manual one or the automated one, never a merge — both at the bare
selection (line 109–110) and across the whole fallback step (lines
78–111), and the reconciled aggregate output is derived from that single
set only. -/
theorem single_active_resultset (fetch : String → Except String PageResult)
    (parse : String → Option Parsed) (m a result : List PageResult) :
    (chooseResult m a = m ∨ chooseResult m a = a)
  ∧ ((fallbackStep fetch result).1 = (manual_crawl fetch urls_to_crawl).1
     ∨ (fallbackStep fetch result).1 = result)
  ∧ (all_extracted_content parse (chooseResult m a) = all_extracted_content parse m
     ∨ all_extracted_content parse (chooseResult m a) = all_extracted_content parse a) := by
  refine ⟨?_, ?_, ?_⟩
  · by_cases h : use_manual m a = true
    · exact Or.inl (by simp [chooseResult, h])
    · exact Or.inr (by simp [chooseResult, h])
  · by_cases h : result.length < 3
    · by_cases hm : use_manual (manual_crawl fetch urls_to_crawl).1 result = true
      · exact Or.inl (by simp [fallbackStep, h, chooseResult, hm])
      · exact Or.inr (by simp [fallbackStep, h, chooseResult, hm])
    · exact Or.inr (by simp [fallbackStep, h])
  · by_cases h : use_manual m a = true
    · exact Or.inl (by simp [chooseResult, h])
    · exact Or.inr (by simp [chooseResult, h])

/-! ### C4: reconciliation completeness -/

/-- C4.  The detailed output holds exactly one `CrawlSummary` per
successful page, in page order; the aggregate output is the
concatenation of the per-page contributions of the successful pages, in
page order; and a successful page's contribution is empty only in the
flattening case, when its content parsed to an empty JSON list — every
successful page triggers exactly one append / flatten / fallback action,
and none is absent from both outputs. -/
theorem reconciliation_completeness (parse : String → Option Parsed)
    (rs : List PageResult) :
    detailed_data rs = (successful_results rs).map mkSummary
  ∧ all_extracted_content parse rs
      = (successful_results rs).flatMap (processPage parse)
  ∧ (∀ p : PageResult, processPage parse p = [] →
       ∃ c, p.extracted_content = some c ∧ ¬ c = ""
         ∧ parse c = some (Parsed.list [])) := by
  refine ⟨?_, ?_, ?_⟩
  · simp [detailed_data, summaryLoop_eq]
  · simp [all_extracted_content, reconcileLoop_eq]
  · intro p hp
    revert hp
    unfold processPage
    cases hc : p.extracted_content with
    | none => simp
    | some c =>
      by_cases hce : c = ""
      · simp [hce]
      · cases hpc : parse c with
        | none => simp [hce, hpc]
        | some v =>
          cases v with
          | list items =>
            cases items with
            | nil => intro _; exact ⟨c, rfl, hce, hpc⟩
            | cons x xs => simp [hce, hpc]
          | single item => simp [hce, hpc]

/-- Witness for C4: with a parse that yields an empty JSON list, a
successful page contributes nothing to the aggregate, exhibiting the
flatten case of the last conjunct. -/
theorem reconciliation_completeness_witness :
    ∃ c, (PageResult.mk "u" true (some "[]") none none).extracted_content = some c
      ∧ ¬ c = ""
      ∧ (fun _ : String => some (Parsed.list [])) c = some (Parsed.list []) :=
  (reconciliation_completeness (fun _ => some (Parsed.list []))
      [⟨"u", true, some "[]", none, none⟩]).2.2
    ⟨"u", true, some "[]", none, none⟩ (by rfl)

/-! ### C5: parse tolerance -/

/-- A parse behaving like `json.loads` on the inputs the counterexample
and witnesses use: every payload is a decode error. -/
def parseNoneF : String → Option Parsed := fun _ => none

/-- Counterexample to C5 as stated.  A successful page whose
`extracted_content` is present but equal to `""` — a string `json.loads`
rejects — does not yield the `{url, content}` parse-fallback record: the
falsy-content branch of line 138 produces the no-extraction record
instead, so the claim fails at this input. -/
theorem parse_tolerance_cex :
    (PageResult.mk "u" true (some "") none none).extracted_content = some ""
  ∧ parseNoneF "" = none
  ∧ processPage parseNoneF ⟨"u", true, some "", none, none⟩
      = [[("url", "u"), ("status", "no_extraction"),
          ("markdown_preview", "No content")]]
  ∧ ¬ processPage parseNoneF ⟨"u", true, some "", none, none⟩
      = [[("url", "u"), ("content", "")]] := by
  refine ⟨rfl, rfl, rfl, ?_⟩
  decide

/-- C5 amended.  For every successful page whose `extracted_content` is
present and non-empty but fails to parse, reconciliation appends exactly
one fallback record holding the page's URL and the raw content string,
and every other page of the result list is still processed on both
sides of it. -/
theorem parse_tolerance (parse : String → Option Parsed) (p : PageResult)
    (c : String) (_hs : p.success = true) (hc : p.extracted_content = some c)
    (hne : ¬ c = "") (hp : parse c = none) :
    processPage parse p = [[("url", p.url), ("content", c)]]
  ∧ ∀ pre post : List PageResult,
      reconcileLoop parse [] (pre ++ p :: post)
        = reconcileLoop parse [] pre
          ++ [("url", p.url), ("content", c)] :: reconcileLoop parse [] post := by
  have hpp : processPage parse p = [[("url", p.url), ("content", c)]] := by
    unfold processPage
    rw [hc]
    simp [hne, hp]
  refine ⟨hpp, ?_⟩
  intro pre post
  simp [reconcileLoop_eq, hpp, List.flatMap_cons, List.flatMap_append]

/-- Witness for C5 amended, at a concrete page with unparsable content
"bad" in a two-page list. -/
theorem parse_tolerance_witness :
    processPage parseNoneF ⟨"u", true, some "bad", none, none⟩
      = [[("url", "u"), ("content", "bad")]]
  ∧ reconcileLoop parseNoneF []
      [⟨"v", true, none, none, none⟩, ⟨"u", true, some "bad", none, none⟩]
    = reconcileLoop parseNoneF [] [⟨"v", true, none, none, none⟩]
      ++ [("url", "u"), ("content", "bad")] :: reconcileLoop parseNoneF [] [] := by
  have h := parse_tolerance parseNoneF ⟨"u", true, some "bad", none, none⟩
    "bad" rfl rfl (by decide) rfl
  exact ⟨h.1, h.2 [⟨"v", true, none, none, none⟩] []⟩

/-! ### C6: no-extraction tolerance -/

/-- Rebuilding a string from its character list is the identity. -/
theorem mk_data (s : String) : String.mk s.data = s := rfl

/-- Concatenation of strings concatenates their character lists. -/
theorem data_append (a b : String) : (a ++ b).data = a.data ++ b.data := rfl

/-- The code-point count of a string built from a character list. -/
theorem pyLen_mk (l : List Char) : pyLen (String.mk l) = l.length := rfl

/-- C6.  A successful page with no `extracted_content` and a non-empty
230-character markdown yields the no-extraction fallback record with the
page's URL, the `no_extraction` status, and a preview whose characters
are the first 200 characters of the markdown followed by the marker
`...`; with markdown absent the preview is the sentinel `No content`. -/
theorem no_extraction_tolerance (parse : String → Option Parsed)
    (p : PageResult) (s : String) (_hs : p.success = true)
    (hc : p.extracted_content = none) (hm : p.markdown = some s)
    (hne : ¬ s = "") (_hlen : pyLen s = 230) :
    processPage parse p
      = [[("url", p.url), ("status", "no_extraction"),
          ("markdown_preview", pySlice s 200 ++ "...")]]
  ∧ (pySlice s 200 ++ "...").data = s.data.take 200 ++ "...".data
  ∧ (∀ q : PageResult, q.extracted_content = none → q.markdown = none →
       processPage parse q
         = [[("url", q.url), ("status", "no_extraction"),
             ("markdown_preview", "No content")]]) := by
  refine ⟨?_, ?_, ?_⟩
  · unfold processPage
    rw [hc]
    simp [no_extraction_record, hm, mdPreview200, hne]
  · rw [data_append]
    rfl
  · intro q hqc hqm
    unfold processPage
    rw [hqc]
    simp [no_extraction_record, hqm, mdPreview200]

/-- Witness for C6 at a concrete 230-character markdown string. -/
theorem no_extraction_tolerance_witness :
    processPage parseNoneF
      ⟨"u", true, none, some (String.mk (List.replicate 230 'a')), none⟩
      = [[("url", "u"), ("status", "no_extraction"),
          ("markdown_preview",
           pySlice (String.mk (List.replicate 230 'a')) 200 ++ "...")]]
  ∧ processPage parseNoneF ⟨"v", true, none, none, none⟩
      = [[("url", "v"), ("status", "no_extraction"),
          ("markdown_preview", "No content")]] := by
  have h := no_extraction_tolerance parseNoneF
    ⟨"u", true, none, some (String.mk (List.replicate 230 'a')), none⟩
    (String.mk (List.replicate 230 'a')) rfl rfl rfl
    (by
      intro h
      have h2 := congrArg pyLen h
      rw [pyLen_mk, List.length_replicate,
          show pyLen "" = 0 from rfl] at h2
      omega)
    (by rw [pyLen_mk, List.length_replicate])
  exact ⟨h.1, h.2.2 ⟨"v", true, none, none, none⟩ rfl rfl⟩

/-! ### C7: ordering invariant -/

/-- C7.  Three successful pages whose contents parse to two-element
lists produce an aggregate of length 6 in source order
`A0, A1, B0, B1, C0, C1`; in general the aggregate is the ordered
concatenation of the successful pages' contributions and the summary
list is the ordered map over the successful pages. -/
theorem ordering_invariant (parse : String → Option Parsed)
    (A B C : PageResult) (sa sb sc : String) (a0 a1 b0 b1 c0 c1 : Rec)
    (hA : A.success = true) (hB : B.success = true) (hC : C.success = true)
    (hAc : A.extracted_content = some sa) (hAne : ¬ sa = "")
    (hAp : parse sa = some (Parsed.list [a0, a1]))
    (hBc : B.extracted_content = some sb) (hBne : ¬ sb = "")
    (hBp : parse sb = some (Parsed.list [b0, b1]))
    (hCc : C.extracted_content = some sc) (hCne : ¬ sc = "")
    (hCp : parse sc = some (Parsed.list [c0, c1])) :
    all_extracted_content parse [A, B, C] = [a0, a1, b0, b1, c0, c1]
  ∧ (all_extracted_content parse [A, B, C]).length = 6
  ∧ (∀ rs : List PageResult,
       all_extracted_content parse rs
         = (successful_results rs).flatMap (processPage parse))
  ∧ (∀ rs : List PageResult,
       detailed_data rs = (successful_results rs).map mkSummary) := by
  have hpA : processPage parse A = [a0, a1] := by
    unfold processPage; rw [hAc]; simp [hAne, hAp]
  have hpB : processPage parse B = [b0, b1] := by
    unfold processPage; rw [hBc]; simp [hBne, hBp]
  have hpC : processPage parse C = [c0, c1] := by
    unfold processPage; rw [hCc]; simp [hCne, hCp]
  have hfilter : successful_results [A, B, C] = [A, B, C] := by
    simp [successful_results, hA, hB, hC]
  have hagg : all_extracted_content parse [A, B, C] = [a0, a1, b0, b1, c0, c1] := by
    rw [all_extracted_content, hfilter, reconcileLoop_eq]
    simp [hpA, hpB, hpC]
  refine ⟨hagg, by rw [hagg]; rfl, ?_, ?_⟩
  · intro rs
    simp [all_extracted_content, reconcileLoop_eq]
  · intro rs
    simp [detailed_data, summaryLoop_eq]

/-- A parse for the C7 witness: three designated payloads parse to
two-element lists, everything else is a decode error. -/
def parse3 : String → Option Parsed := fun s =>
  if s = "sa" then some (Parsed.list [[("k", "a0")], [("k", "a1")]])
  else if s = "sb" then some (Parsed.list [[("k", "b0")], [("k", "b1")]])
  else if s = "sc" then some (Parsed.list [[("k", "c0")], [("k", "c1")]])
  else none

/-- Witness for C7 at three concrete successful pages. -/
theorem ordering_invariant_witness :
    all_extracted_content parse3
      [⟨"A", true, some "sa", none, none⟩,
       ⟨"B", true, some "sb", none, none⟩,
       ⟨"C", true, some "sc", none, none⟩]
      = [[("k", "a0")], [("k", "a1")], [("k", "b0")], [("k", "b1")],
         [("k", "c0")], [("k", "c1")]] :=
  (ordering_invariant parse3
    ⟨"A", true, some "sa", none, none⟩
    ⟨"B", true, some "sb", none, none⟩
    ⟨"C", true, some "sc", none, none⟩
    "sa" "sb" "sc"
    [("k", "a0")] [("k", "a1")] [("k", "b0")] [("k", "b1")]
    [("k", "c0")] [("k", "c1")]
    rfl rfl rfl rfl (by decide) rfl rfl (by decide) rfl rfl (by decide) rfl).1

/-! ### C9: summary construction -/

/-- C9.  The summary built for a successful page carries the page's URL,
its success flag, its raw `extracted_content` unmodified, and a markdown
preview that is the first 500 characters followed by the marker when the
markdown exceeds 500 characters, and the markdown unchanged otherwise;
one such summary is built per successful page of the result list. -/
theorem summary_fields (p : PageResult) (_hs : p.success = true) :
    (mkSummary p).url = p.url
  ∧ (mkSummary p).success = p.success
  ∧ (mkSummary p).extracted_content = p.extracted_content
  ∧ (∀ s : String, p.markdown = some s → 500 < pyLen s →
       (mkSummary p).markdown = some (pySlice s 500 ++ "...")
         ∧ (pySlice s 500 ++ "...").data = s.data.take 500 ++ "...".data)
  ∧ (∀ s : String, p.markdown = some s → pyLen s ≤ 500 →
       (mkSummary p).markdown = some s)
  ∧ (∀ rs : List PageResult,
       detailed_data rs = (successful_results rs).map mkSummary) := by
  refine ⟨rfl, rfl, rfl, ?_, ?_, ?_⟩
  · intro s hm hlen
    have hne : ¬ s = "" := by
      intro he
      rw [he] at hlen
      simp [pyLen] at hlen
    constructor
    · simp [mkSummary, hm, mdPreview500, hne, hlen]
    · rw [data_append]; rfl
  · intro s hm hlen
    have : ¬ (¬ s = "" ∧ 500 < pyLen s) := by
      intro hcontra
      omega
    simp [mkSummary, hm, mdPreview500, this]
  · intro rs
    simp [detailed_data, summaryLoop_eq]

/-- Witness for C9 at a 501-character markdown (truncated with marker)
and a short one (kept unchanged). -/
theorem summary_fields_witness :
    (mkSummary ⟨"u", true, some "raw",
        some (String.mk (List.replicate 501 'a')), none⟩).markdown
      = some (pySlice (String.mk (List.replicate 501 'a')) 500 ++ "...")
  ∧ (mkSummary ⟨"v", true, none, some "short", none⟩).markdown = some "short" :=
  ⟨((summary_fields ⟨"u", true, some "raw",
        some (String.mk (List.replicate 501 'a')), none⟩ rfl).2.2.2.1
      (String.mk (List.replicate 501 'a')) rfl
      (by rw [pyLen_mk, List.length_replicate]; omega)).1,
   (summary_fields ⟨"v", true, none, some "short", none⟩ rfl).2.2.2.2.1
      "short" rfl (by decide)⟩

/-! ### C10: unconditional marker on the 200-character preview -/

/-- C10.  For a successful page with no `extracted_content` and a
non-empty markdown strictly shorter than 200 characters, the
no-extraction preview is the whole markdown with the marker `...`
appended unconditionally; by contrast the 500-character summary preview
keeps a markdown of at most 500 characters unchanged, adding the marker
only beyond the bound. -/
theorem preview_marker_asymmetry (parse : String → Option Parsed)
    (p : PageResult) (s : String) (_hs : p.success = true)
    (hc : p.extracted_content = none) (hm : p.markdown = some s)
    (hne : ¬ s = "") (hlen : pyLen s < 200) :
    mdPreview200 (some s) = s ++ "..."
  ∧ processPage parse p
      = [[("url", p.url), ("status", "no_extraction"),
          ("markdown_preview", s ++ "...")]]
  ∧ (∀ (q : PageResult) (t : String), q.markdown = some t → pyLen t ≤ 500 →
       (mkSummary q).markdown = some t) := by
  have hslice : pySlice s 200 = s := by
    unfold pySlice
    rw [List.take_of_length_le (Nat.le_of_lt hlen)]
  have hprev : mdPreview200 (some s) = s ++ "..." := by
    simp [mdPreview200, hne, hslice]
  refine ⟨hprev, ?_, ?_⟩
  · unfold processPage
    rw [hc]
    simp [no_extraction_record, hm, hprev]
  · intro q t hqt hqlen
    have : ¬ (¬ t = "" ∧ 500 < pyLen t) := by
      intro hcontra
      omega
    simp [mkSummary, hqt, mdPreview500, this]

/-- Witness for C10: markdown "hi" (2 characters) gets the marker in the
no-extraction preview, while the summary preview keeps it unchanged. -/
theorem preview_marker_asymmetry_witness :
    processPage parseNoneF ⟨"u", true, none, some "hi", none⟩
      = [[("url", "u"), ("status", "no_extraction"),
          ("markdown_preview", "hi" ++ "...")]]
  ∧ (mkSummary ⟨"u", true, none, some "hi", none⟩).markdown = some "hi" := by
  have h := preview_marker_asymmetry parseNoneF
    ⟨"u", true, none, some "hi", none⟩ "hi" rfl rfl rfl (by decide) (by decide)
  exact ⟨h.2.1, h.2.2 ⟨"u", true, none, some "hi", none⟩ "hi" rfl (by decide)⟩

end Crawl
